import Mathlib

/-!
Shallow embedding of the PostgreSQL storage backend of aries-store-kv
(`src/postgres/mod.rs`).  The SQL tables are modelled as lists of rows, the
canned queries both as their literal strings (copied verbatim from the source)
and as executable row-level semantics, and the operation layer
(`QueryBackend::update`, `fetch`, `count`, `remove_all`,
`Backend::rekey_backend`) as functions over an explicit database state.
A SQL transaction is modelled by returning the new database state only on
success: an error result leaves the caller's state untouched, matching
rollback-on-drop.

Pieces of the repository that the source file references but whose sources
are not available (`db_utils`, `keys`, `types`) are modelled from the spec
where a claim needs them; each such definition carries a doc comment saying
so.
-/

set_option autoImplicit false
set_option maxRecDepth 16384

namespace AriesStoreKv

/-- Byte strings (encrypted blobs, tag names and values) are modelled as
lists of naturals. -/
abbrev Bytes := List Nat

/-- Error kinds of the store (spec section 7; the `err_msg!` kinds used in
`src/postgres/mod.rs` are `Backend`, `NotFound`, `Duplicate`, `Unexpected`). -/
inductive ErrorKind where
  | backend
  | notFound
  | duplicate
  | encryption
  | input
  | unexpected
  | busy
deriving DecidableEq, Repr

/-- Result of a fallible store operation.  `panicked` models a Rust panic
(such as `Option::unwrap` on `None`), which is distinct from returning any
`ErrorKind` to the caller. -/
inductive UpdateResult (α : Type) where
  | ok (a : α)
  | err (e : ErrorKind)
  | panicked
deriving DecidableEq, Repr

/-- Modelled from the spec: the operations enumeration
`Insert | Replace | Remove` from the `types` module (spec section 6). -/
inductive EntryOperation where
  | insert
  | replace
  | remove
deriving DecidableEq, Repr

/-- Modelled from the spec: `EntryTag` from the `types` module — either
`Encrypted(name, value)` or `Plaintext(name, value)`. -/
inductive EntryTag where
  | encrypted (name value : String)
  | plaintext (name value : String)
deriving DecidableEq, Repr

/-- Modelled from the spec: an encrypted tag as produced by
`encrypt_entry_tags` — encrypted name and value bytes plus the preserved
plaintext flag. -/
structure EncEntryTag where
  name : Bytes
  value : Bytes
  plaintext : Bool
deriving DecidableEq, Repr

/-- Modelled from the spec: the in-memory `Entry` record
(`Entry::new(category, name, value, tags)`). -/
structure Entry where
  category : String
  name : String
  value : Bytes
  tags : Option (List EntryTag)
deriving DecidableEq, Repr

/-- Modelled from the spec: the per-profile `StoreKey` bundle (`keys` module,
spec section 4.1).  Category, name and tag encryption are deterministic, so
they are plain functions; value encryption is used here only to produce the
stored blob, and decryption only to rebuild fetched entries, so both are
carried as functions as well. -/
structure StoreKey where
  encrypt_entry_category : String → Bytes
  encrypt_entry_name : String → Bytes
  encrypt_entry_value : Bytes → Bytes
  encrypt_entry_tags : List EntryTag → List EncEntryTag
  decrypt_entry_value : Bytes → Bytes
  decrypt_entry_tags : List EncEntryTag → List EntryTag

/-- A row of the `items` table (spec section 3 schema contract; the columns
bound by the queries in `src/postgres/mod.rs`). -/
structure ItemRow where
  id : Int
  profile_id : Int
  kind : Int
  category : Bytes
  name : Bytes
  value : Bytes
  expiry : Option Int
deriving DecidableEq, Repr

/-- A row of the `items_tags` table (`TAG_INSERT_QUERY` binds
`item_id, name, value, plaintext`, the flag as an `i16`). -/
structure TagRow where
  item_id : Int
  name : Bytes
  value : Bytes
  plaintext : Int
deriving DecidableEq, Repr

/-- A row of the `profiles` table (`id`, unique `name`, wrapped
`store_key`). -/
structure ProfileRow where
  id : Int
  name : String
  store_key : Bytes
deriving DecidableEq, Repr

/-- A row of the `config` table (`name` text primary key, `value` text). -/
structure ConfigRow where
  name : String
  value : String
deriving DecidableEq, Repr

/-- The database state: the four tables, the next `items.id` handed out by
`RETURNING id`, and the value of `CURRENT_TIMESTAMP`. -/
structure Db where
  items : List ItemRow
  items_tags : List TagRow
  profiles : List ProfileRow
  config : List ConfigRow
  next_id : Int
  now : Int
deriving DecidableEq, Repr

/-! Literal query strings, copied verbatim from `src/postgres/mod.rs`
lines 26-58, and the one inline query of `resolve_profile_key`
(line 512). -/

def COUNT_QUERY : String := "SELECT COUNT(*) FROM items i
    WHERE profile_id = $1 AND kind = $2 AND category = $3
    AND (expiry IS NULL OR expiry > CURRENT_TIMESTAMP)"

def DELETE_QUERY : String := "DELETE FROM items
    WHERE profile_id = $1 AND kind = $2 AND category = $3 AND name = $4"

def FETCH_QUERY : String := "SELECT id, value,
    (SELECT ARRAY_TO_STRING(ARRAY_AGG(it.plaintext || ':'
        || ENCODE(it.name, 'hex') || ':' || ENCODE(it.value, 'hex')), ',')
        FROM items_tags it WHERE it.item_id = i.id) tags
    FROM items i
    WHERE profile_id = $1 AND kind = $2 AND category = $3 AND name = $4
    AND (expiry IS NULL OR expiry > CURRENT_TIMESTAMP)"

def FETCH_QUERY_UPDATE : String := "SELECT id, value,
    (SELECT ARRAY_TO_STRING(ARRAY_AGG(it.plaintext || ':'
        || ENCODE(it.name, 'hex') || ':' || ENCODE(it.value, 'hex')), ',')
        FROM items_tags it WHERE it.item_id = i.id) tags
    FROM items i
    WHERE profile_id = $1 AND kind = $2 AND category = $3 AND name = $4
    AND (expiry IS NULL OR expiry > CURRENT_TIMESTAMP) FOR UPDATE"

def INSERT_QUERY : String :=
    "INSERT INTO items (profile_id, kind, category, name, value, expiry)
    VALUES ($1, $2, $3, $4, $5, $6)
    ON CONFLICT DO NOTHING RETURNING id"

def SCAN_QUERY : String := "SELECT id, name, value,
    (SELECT ARRAY_TO_STRING(ARRAY_AGG(it.plaintext || ':'
        || ENCODE(it.name, 'hex') || ':' || ENCODE(it.value, 'hex')), ',')
        FROM items_tags it WHERE it.item_id = i.id) tags
    FROM items i WHERE profile_id = $1 AND kind = $2 AND category = $3
    AND (expiry IS NULL OR expiry > CURRENT_TIMESTAMP)"

def DELETE_ALL_QUERY : String := "DELETE FROM items i
    WHERE i.profile_id = $1 AND i.kind = $2 AND i.category = $3"

def TAG_INSERT_QUERY : String := "INSERT INTO items_tags
    (item_id, name, value, plaintext) VALUES ($1, $2, $3, $4)"

/-- The query string executed by `resolve_profile_key` on a KeyCache miss
(`src/postgres/mod.rs` line 512), copied verbatim — note the `?1`
placeholder. -/
def PROFILE_FETCH_QUERY : String := "SELECT id, store_key FROM profiles WHERE name=?1"

/-! Plain string utilities used to state textual facts about the query
constants (substring containment and suffix), written over character lists
so that they evaluate in the kernel. -/

/-- `listStartsWith pat s` is true when `pat` is an initial segment of `s`. -/
def listStartsWith : List Char → List Char → Bool
  | [], _ => true
  | _ :: _, [] => false
  | p :: ps, c :: cs => p == c && listStartsWith ps cs

/-- `strContainsAux pat s` is true when `pat` occurs contiguously in `s`. -/
def strContainsAux (pat : List Char) : List Char → Bool
  | [] => pat.isEmpty
  | c :: cs => listStartsWith pat (c :: cs) || strContainsAux pat cs

/-- Substring containment on strings. -/
def strContains (pat s : String) : Bool :=
  strContainsAux pat.data s.data

/-- `strEndsWith s pat` is true when `s` ends with `pat`. -/
def strEndsWith (s pat : String) : Bool :=
  listStartsWith pat.data.reverse s.data.reverse

/-! Row-level semantics of the WHERE clauses of the canned queries. -/

/-- SQL `expiry IS NULL OR expiry > CURRENT_TIMESTAMP`, the visibility
predicate shared by `COUNT_QUERY`, `FETCH_QUERY`, `FETCH_QUERY_UPDATE` and
`SCAN_QUERY`. -/
def expiryLive (now : Int) : Option Int → Bool
  | none => true
  | some t => decide (now < t)

/-- SQL `profile_id = $1 AND kind = $2 AND category = $3`, the column match
shared by `COUNT_QUERY`, `SCAN_QUERY` and `DELETE_ALL_QUERY`. -/
def itemCatMatch (pid kind : Int) (ec : Bytes) (r : ItemRow) : Bool :=
  r.profile_id == pid && r.kind == kind && r.category == ec

/-- SQL `profile_id = $1 AND kind = $2 AND category = $3 AND name = $4`, the
column match shared by `DELETE_QUERY`, `FETCH_QUERY`, `FETCH_QUERY_UPDATE`
and the conflict target of `INSERT_QUERY`. -/
def itemKeyMatch (pid kind : Int) (ec en : Bytes) (r : ItemRow) : Bool :=
  itemCatMatch pid kind ec r && r.name == en

/-- The row selected by `FETCH_QUERY` / `FETCH_QUERY_UPDATE`: full key match
plus the expiry visibility predicate. -/
def fetchRowPred (now : Int) (pid kind : Int) (ec en : Bytes) (r : ItemRow) : Bool :=
  itemKeyMatch pid kind ec en r && expiryLive now r.expiry

/-- The rows counted by `COUNT_QUERY` (its WHERE clause filters on
profile, kind, category and expiry visibility). -/
def countQueryRows (db : Db) (pid kind : Int) (ec : Bytes) : List ItemRow :=
  db.items.filter (fun r => itemCatMatch pid kind ec r && expiryLive db.now r.expiry)

/-- The rows streamed by `SCAN_QUERY` (same WHERE clause as
`COUNT_QUERY`). -/
def scanQueryRows (db : Db) (pid kind : Int) (ec : Bytes) : List ItemRow :=
  db.items.filter (fun r => itemCatMatch pid kind ec r && expiryLive db.now r.expiry)

/-- `fetch_optional` on `FETCH_QUERY`: the first matching visible row. -/
def fetchQueryExec (db : Db) (pid kind : Int) (ec en : Bytes) : Option ItemRow :=
  db.items.find? (fetchRowPred db.now pid kind ec en)

/-- `fetch_optional` on `FETCH_QUERY_UPDATE`: the same WHERE clause as
`FETCH_QUERY`; the trailing `FOR UPDATE` only takes a row lock and does not
change the selected row. -/
def fetchQueryUpdateExec (db : Db) (pid kind : Int) (ec en : Bytes) : Option ItemRow :=
  db.items.find? (fetchRowPred db.now pid kind ec en)

/-- Execution of `DELETE_QUERY`: removes every row matching
`(profile_id, kind, category, name)` (no expiry predicate) and reports the
number of rows affected.  Rows of `items_tags` belonging to a deleted item
are removed as well (modelled from the spec: deletion of `items_tags`
cascades with the parent item, spec section 3). -/
def deleteQueryExec (db : Db) (pid kind : Int) (ec en : Bytes) : Db × Nat :=
  let matched := db.items.filter (itemKeyMatch pid kind ec en)
  let kept := db.items.filter (fun r => !(itemKeyMatch pid kind ec en r))
  let ids := matched.map (fun r => r.id)
  ({ db with
      items := kept,
      items_tags := db.items_tags.filter (fun t => !(ids.contains t.item_id)) },
    matched.length)

/-- Execution of `INSERT_QUERY` (`ON CONFLICT DO NOTHING RETURNING id`):
when a row with the same `(profile_id, kind, category, name)` already exists
the conflict is swallowed and no row is returned; otherwise the new row is
stored and its fresh id returned.  The uniqueness target is modelled from the
spec: `(profile_id, kind, category, name)` unique (spec section 3). -/
def insertQueryExec (db : Db) (pid kind : Int) (ec en ev : Bytes)
    (expiry : Option Int) : Option (Int × Db) :=
  if db.items.any (itemKeyMatch pid kind ec en) then none
  else
    some (db.next_id,
      { db with
          items := db.items ++ [⟨db.next_id, pid, kind, ec, en, ev, expiry⟩],
          next_id := db.next_id + 1 })

/-- Modelled from the spec: `expiry_timestamp` from `db_utils` converts an
absolute epoch-millisecond value to the backend timestamp (spec section 4.7,
"Expiry encoding"); on the abstract time axis used here it is the
identity. -/
def expiry_timestamp (ms : Int) : Int := ms

/-- `perform_insert` (`src/postgres/mod.rs` lines 527-559): run
`INSERT_QUERY`; an empty result is reported as `Duplicate`; otherwise one
`TAG_INSERT_QUERY` row is inserted per encrypted tag (plaintext flag bound as
an `i16`). -/
def perform_insert (db : Db) (pid kind : Int) (ec en ev : Bytes)
    (enc_tags : Option (List EncEntryTag)) (expiry : Option Int) :
    UpdateResult Db :=
  match insertQueryExec db pid kind ec en ev expiry with
  | none => .err .duplicate
  | some (row_id, db2) =>
    match enc_tags with
    | none => .ok db2
    | some ts =>
      .ok { db2 with
              items_tags := db2.items_tags ++
                ts.map (fun tg => ⟨row_id, tg.name, tg.value, if tg.plaintext then 1 else 0⟩) }

/-- `perform_remove` (`src/postgres/mod.rs` lines 561-581): run
`DELETE_QUERY`; zero rows affected is `NotFound` unless `ignore_error` is
set. -/
def perform_remove (db : Db) (pid kind : Int) (ec en : Bytes)
    (ignore_error : Bool) : UpdateResult Db :=
  let res := deleteQueryExec db pid kind ec en
  if res.2 == 0 && !ignore_error then .err .notFound else .ok res.1

/-- `QueryBackend::update` (`src/postgres/mod.rs` lines 373-453).  The
session is modelled as already promoted, with its resolved
`(profile_id, key)` passed in (`acquire_key`).  `value.unwrap()` on a `None`
value (lines 392 and 418) is a Rust panic, modelled as `panicked`.  The
Replace branch calls `perform_remove` with `ignore_error = false`
(line 425).  The per-operation SQL transaction is modelled by returning the
updated state only on success. -/
def update (db : Db) (key : StoreKey) (pid kind : Int)
    (operation : EntryOperation) (category name : String)
    (value : Option Bytes) (tags : Option (List EntryTag))
    (expiry_ms : Option Int) : UpdateResult Db :=
  match operation with
  | .insert =>
    match value with
    | none => .panicked
    | some v =>
      perform_insert db pid kind (key.encrypt_entry_category category)
        (key.encrypt_entry_name name) (key.encrypt_entry_value v)
        (tags.map key.encrypt_entry_tags) (expiry_ms.map expiry_timestamp)
  | .replace =>
    match value with
    | none => .panicked
    | some v =>
      match perform_remove db pid kind (key.encrypt_entry_category category)
          (key.encrypt_entry_name name) false with
      | .ok db2 =>
        perform_insert db2 pid kind (key.encrypt_entry_category category)
          (key.encrypt_entry_name name) (key.encrypt_entry_value v)
          (tags.map key.encrypt_entry_tags) (expiry_ms.map expiry_timestamp)
      | .err e => .err e
      | .panicked => .panicked
  | .remove =>
    perform_remove db pid kind (key.encrypt_entry_category category)
      (key.encrypt_entry_name name) false

/-- The query string chosen by `QueryBackend::fetch`
(`src/postgres/mod.rs` line 280): the row-locking variant only when
`for_update` holds and the session is inside a transaction. -/
def fetchQueryChoice (for_update in_txn : Bool) : String :=
  if for_update && in_txn then FETCH_QUERY_UPDATE else FETCH_QUERY

/-- `QueryBackend::fetch` (`src/postgres/mod.rs` lines 260-313): encrypt
category and name, run the chosen fetch query, and on a row decrypt the value
and the aggregated tags (a NULL tag aggregate yields `Some(vec![])`). -/
def fetch (db : Db) (key : StoreKey) (pid kind : Int) (category name : String)
    (for_update in_txn : Bool) : Option Entry :=
  let ec := key.encrypt_entry_category category
  let en := key.encrypt_entry_name name
  match (if for_update && in_txn then fetchQueryUpdateExec db pid kind ec en
         else fetchQueryExec db pid kind ec en) with
  | none => none
  | some r =>
    let trs := db.items_tags.filter (fun t => t.item_id == r.id)
    let tags :=
      if trs.isEmpty then []
      else key.decrypt_entry_tags (trs.map (fun t => ⟨t.name, t.value, t.plaintext == 1⟩))
    some ⟨category, name, key.decrypt_entry_value r.value, some tags⟩

/-- `QueryBackend::count` (`src/postgres/mod.rs` lines 235-258) without a tag
filter: the length of the `COUNT_QUERY` row set. -/
def count (db : Db) (key : StoreKey) (pid kind : Int) (category : String) : Int :=
  ((countQueryRows db pid kind (key.encrypt_entry_category category)).length : Int)

/-- `QueryBackend::remove_all` (`src/postgres/mod.rs` lines 341-371) without
a tag filter: run `DELETE_ALL_QUERY` (no expiry predicate) and return the
number of rows affected.  Tag rows of deleted items cascade (modelled from
the spec, section 3). -/
def remove_all (db : Db) (key : StoreKey) (pid kind : Int) (category : String) :
    Db × Int :=
  let ec := key.encrypt_entry_category category
  let matched := db.items.filter (itemCatMatch pid kind ec)
  let kept := db.items.filter (fun r => !(itemCatMatch pid kind ec r))
  let ids := matched.map (fun r => r.id)
  ({ db with
      items := kept,
      items_tags := db.items_tags.filter (fun t => !(ids.contains t.item_id)) },
    (matched.length : Int))

/-! The key cache and `Backend::rekey_backend`. -/

/-- Modelled from the spec: the in-memory `KeyCache` (spec section 4.3) —
the wrap key plus the profile map.  Wrap keys and store keys are opaque
handles, modelled as naturals. -/
structure KeyCache where
  wrap_key : Nat
  profiles : List (String × Int × Nat)
deriving DecidableEq, Repr

/-- `KeyCache::new(wrap_key)`: a fresh cache holding only the new wrap key. -/
def KeyCache.new (wrap_key : Nat) : KeyCache := ⟨wrap_key, []⟩

/-- Insertion into the `BTreeMap<ProfileId, Vec<u8>>` of re-encoded store
keys built by `rekey_backend`: an existing entry for the same profile id is
replaced, otherwise the pair is added. -/
def updInsert (m : List (Int × Bytes)) (pid : Int) (k : Bytes) : List (Int × Bytes) :=
  if m.any (fun p => p.1 == pid) then
    m.map (fun p => if p.1 == pid then (pid, k) else p)
  else m ++ [(pid, k)]

/-- The first loop of `rekey_backend` (`src/postgres/mod.rs` lines 145-155):
for every `profiles` row, load the store key under the old wrap key
(`load_key`, may fail) and re-encode it under the new wrap key
(`encode_store_key`, may fail), collecting the results per profile id. -/
def rekeyCollectKeys (loadKey : Bytes → Except ErrorKind Nat)
    (encodeKey : Nat → Nat → Except ErrorKind Bytes) (wrapKey : Nat) :
    List ProfileRow → List (Int × Bytes) → Except ErrorKind (List (Int × Bytes))
  | [], acc => .ok acc
  | r :: rest, acc =>
    match loadKey r.store_key with
    | .error e => .error e
    | .ok sk =>
      match encodeKey sk wrapKey with
      | .error e => .error e
      | .ok upd => rekeyCollectKeys loadKey encodeKey wrapKey rest (updInsert acc r.id upd)

/-- The second loop of `rekey_backend` (`src/postgres/mod.rs` lines 156-167):
`UPDATE profiles SET store_key=$1 WHERE id=$2` for each collected pair,
requiring exactly one row affected per profile; any other count aborts with a
`Backend` error. -/
def applyProfileUpdates (db : Db) : List (Int × Bytes) → Except ErrorKind Db
  | [] => .ok db
  | (pid, k) :: rest =>
    if (db.profiles.filter (fun q => q.id == pid)).length == 1 then
      applyProfileUpdates
        { db with
            profiles := db.profiles.map
              (fun q => if q.id == pid then { q with store_key := k } else q) }
        rest
    else .error .backend

/-- The config step of `rekey_backend` (`src/postgres/mod.rs` lines
168-176): `UPDATE config SET value=$1 WHERE name='wrap_key'`, requiring
exactly one row affected. -/
def updateConfigWrapKey (db : Db) (uri : String) : Except ErrorKind Db :=
  if (db.config.filter (fun c => c.name == "wrap_key")).length == 1 then
    .ok { db with
            config := db.config.map
              (fun c => if c.name == "wrap_key" then { c with value := uri } else c) }
  else .error .backend

/-- `Backend::rekey_backend` (`src/postgres/mod.rs` lines 136-181).
`resolve` stands for `WrapKeyMethod::resolve` (a new wrap key and its URI),
`loadKey` for `KeyCache::load_key` under the old wrap key and `encodeKey` for
`encode_store_key` — all external fallible operations.  All table writes run
inside one transaction: the first component is the call's result, the second
and third are the database and the backend's key cache afterwards.  Only
after the transaction commits is the cache replaced by
`KeyCache::new(wrap_key)`; on any error the transaction is dropped
(rolled back) and both are returned unchanged. -/
def rekey_backend (db : Db) (cache : KeyCache)
    (resolve : Except ErrorKind (Nat × String))
    (loadKey : Bytes → Except ErrorKind Nat)
    (encodeKey : Nat → Nat → Except ErrorKind Bytes) :
    Except ErrorKind Unit × Db × KeyCache :=
  match resolve with
  | .error e => (.error e, db, cache)
  | .ok (wrapKey, wrapKeyRef) =>
    match rekeyCollectKeys loadKey encodeKey wrapKey db.profiles [] with
    | .error e => (.error e, db, cache)
    | .ok updKeys =>
      match applyProfileUpdates db updKeys with
      | .error e => (.error e, db, cache)
      | .ok txn2 =>
        match updateConfigWrapKey txn2 wrapKeyRef with
        | .error e => (.error e, db, cache)
        | .ok txn3 => (.ok (), txn3, KeyCache.new wrapKey)

/-! Placeholder rendering and substitution. -/

/-- `QueryPrepare::placeholder` for the Postgres store
(`src/postgres/mod.rs` lines 465-467): `format!("${}", index)`. -/
def placeholder (index : Int) : String := "$" ++ toString index

/-- Consume a maximal run of decimal digits, returning the accumulated
number and the remaining characters. -/
def scanDigits (acc : Nat) : List Char → Nat × List Char
  | [] => (acc, [])
  | c :: cs =>
    if c.isDigit then scanDigits (acc * 10 + (c.toNat - 48)) cs
    else (acc, c :: cs)

/-- Modelled from the spec: the walk of `replace_arg_placeholders` from
`db_utils` (spec sections 4.5 and 8, and the in-source test
`postgres_simple_and_convert_args_works`).  Each `$$` token is replaced by
`placeholder` at the running index, each existing `$N` placeholder is
renumbered to `placeholder (N + start - 1)`, and the running index advances
by one per replaced token; a lone `$` is copied through.  The fuel is the
input length, which every step strictly consumes. -/
def replaceArgsAux (start : Int) : Nat → List Char → Int → List Char
  | 0, s, _ => s
  | _ + 1, [], _ => []
  | fuel + 1, '$' :: '$' :: rest, index =>
    (placeholder index).data ++ replaceArgsAux start fuel rest (index + 1)
  | fuel + 1, '$' :: c :: rest, index =>
    if c.isDigit then
      let sc := scanDigits (c.toNat - 48) rest
      (placeholder (Int.ofNat sc.1 + start - 1)).data ++
        replaceArgsAux start fuel sc.2 (index + 1)
    else '$' :: replaceArgsAux start fuel (c :: rest) index
  | fuel + 1, c :: rest, index => c :: replaceArgsAux start fuel rest index

/-- Modelled from the spec: `replace_arg_placeholders` from `db_utils`,
substituting abstract placeholders in a query fragment starting at the given
index (spec section 4.5). -/
def replace_arg_placeholders (frag : String) (start_index : Int) : String :=
  ⟨replaceArgsAux start_index frag.data.length frag.data start_index⟩

/-! Concrete fixtures used by witnesses and counterexamples. -/

/-- A concrete store key for witnesses: category and name encrypt
deterministically to their character codes. -/
def strBytes (s : String) : Bytes := s.data.map Char.toNat

/-- A concrete `StoreKey` instance for witnesses. -/
def keyC : StoreKey :=
  ⟨fun s => strBytes s, fun s => strBytes s, fun b => b,
   fun _ => [], fun b => b, fun _ => []⟩

/-- An empty database. -/
def dbEmpty : Db := ⟨[], [], [], [], 1, 0⟩

/-- A database holding one live entry for profile 1, kind 0, category `"c"`,
name `"n"` (as encrypted by `keyC`). -/
def dbOne : Db :=
  ⟨[⟨1, 1, 0, strBytes "c", strBytes "n", [9], none⟩], [], [], [], 2, 0⟩

/-- `dbOne` after its single item row is removed. -/
def dbOneRemoved : Db := ⟨[], [], [], [], 2, 0⟩

/-- A database holding one already-expired entry (expiry in the past
relative to `now = 0`) for the same key as `dbOne`. -/
def dbOneExpired : Db :=
  ⟨[⟨1, 1, 0, strBytes "c", strBytes "n", [9], some (-5)⟩], [], [], [], 2, 0⟩

/-- The expired item row of `dbOneExpired`. -/
def itExpired : ItemRow := ⟨1, 1, 0, strBytes "c", strBytes "n", [9], some (-5)⟩

/-- A database with one profile and a proper `wrap_key` config row, for the
rekey witnesses. -/
def dbRekey : Db :=
  ⟨[], [], [⟨1, "alice", [7]⟩], [⟨"wrap_key", "old-uri"⟩], 1, 0⟩

/-- A database with two `profiles` rows sharing one id, so the store-key
update affects two rows and fails the exactly-one-row-affected check. -/
def dbRekeyBad : Db :=
  ⟨[], [], [⟨1, "alice", [7]⟩, ⟨1, "bob", [8]⟩], [⟨"wrap_key", "old-uri"⟩], 1, 0⟩

/-- A concrete starting key cache. -/
def cacheC : KeyCache := ⟨5, [("alice", (1, 3))]⟩

/-- The database produced by a successful rekey of `dbRekey` with new wrap
key 9, wrap-key URI `"new-uri"`, loaded store key 3 and re-encoding
`fun a b => [a + b]`. -/
def dbRekeyDone : Db :=
  ⟨[], [], [⟨1, "alice", [12]⟩], [⟨"wrap_key", "new-uri"⟩], 1, 0⟩

/-! Helper lemmas. -/

/-- Every row accepted by the fetch queries also matches the key columns of
`DELETE_QUERY`, so after a deletion by the same key the fetch queries find
nothing. -/
theorem find?_fetch_after_delete (l : List ItemRow) (now pid kind : Int) (ec en : Bytes) :
    (l.filter (fun r => !(itemKeyMatch pid kind ec en r))).find?
      (fetchRowPred now pid kind ec en) = none := by
  rw [List.find?_eq_none]
  intro x hx
  have hkm := (List.mem_filter.mp hx).2
  simp only [Bool.not_eq_true'] at hkm
  simp [fetchRowPred, hkm]

/-- The store-key update of `rekey_backend` does not change profile ids, so
the number of rows matched by `WHERE id=$2` is stable across updates. -/
theorem length_filter_id_map (l : List ProfileRow) (pid x : Int) (k : Bytes) :
    ((l.map (fun q => if q.id == pid then { q with store_key := k } else q)).filter
        (fun q => q.id == x)).length =
      (l.filter (fun q => q.id == x)).length := by
  rw [← List.countP_eq_length_filter, ← List.countP_eq_length_filter, List.countP_map]
  refine List.countP_congr ?_
  intro a _
  show ((if a.id == pid then { a with store_key := k } else a).id == x) ↔ (a.id == x)
  have hid : ((if a.id == pid then { a with store_key := k } else a).id) = a.id := by
    split <;> rfl
  rw [hid]

/-- If some collected profile id matches a number of `profiles` rows other
than one, the update loop of `rekey_backend` ends in a `Backend` error. -/
theorem applyProfileUpdates_err_of_badCount :
    ∀ (l : List (Int × Bytes)) (db : Db),
    (∃ p ∈ l, (db.profiles.filter (fun q => q.id == p.1)).length ≠ 1) →
    ∃ e, applyProfileUpdates db l = .error e := by
  intro l
  induction l with
  | nil =>
    rintro db ⟨p, hp, _⟩
    exact absurd hp (List.not_mem_nil p)
  | cons a t ih =>
    rintro db ⟨p, hp, hlen⟩
    obtain ⟨pid, k⟩ := a
    by_cases hc : (db.profiles.filter (fun q => q.id == pid)).length = 1
    · have hc' : ((db.profiles.filter (fun q => q.id == pid)).length == 1) = true := by
        simp [hc]
      rcases List.mem_cons.mp hp with hpa | hpt
      · exact absurd (by rw [hpa]; exact hc) hlen
      · obtain ⟨e, he⟩ := ih
          { db with
              profiles := db.profiles.map
                (fun q => if q.id == pid then { q with store_key := k } else q) }
          ⟨p, hpt, by rw [show Db.profiles { db with
              profiles := db.profiles.map
                (fun q => if q.id == pid then { q with store_key := k } else q) } = db.profiles.map
                (fun q => if q.id == pid then { q with store_key := k } else q) from rfl,
            length_filter_id_map]; exact hlen⟩
        exact ⟨e, by simpa [applyProfileUpdates, hc'] using he⟩
    · have hc' : ((db.profiles.filter (fun q => q.id == pid)).length == 1) = false := by
        simp [hc]
      exact ⟨.backend, by simp [applyProfileUpdates, hc']⟩

/-- When the fetch queries select no row, `QueryBackend::fetch` returns
`None`, for either query variant. -/
theorem fetch_eq_none_of_no_match (db : Db) (key : StoreKey) (pid kind : Int)
    (cat nm : String) (fu tx : Bool)
    (h : db.items.find? (fetchRowPred db.now pid kind (key.encrypt_entry_category cat)
        (key.encrypt_entry_name nm)) = none) :
    fetch db key pid kind cat nm fu tx = none := by
  simp only [fetch, fetchQueryExec, fetchQueryUpdateExec, ite_self, h]

/-- Closed form of `update` with operation Remove: `NotFound` exactly when
`DELETE_QUERY` affects zero rows, the deleted state otherwise. -/
theorem update_remove_eq (db : Db) (key : StoreKey) (pid kind : Int) (cat nm : String)
    (v : Option Bytes) (tags : Option (List EntryTag)) (ex : Option Int) :
    update db key pid kind .remove cat nm v tags ex =
      if ((db.items.filter (itemKeyMatch pid kind (key.encrypt_entry_category cat)
          (key.encrypt_entry_name nm))).length == 0) = true
      then .err .notFound
      else .ok (deleteQueryExec db pid kind (key.encrypt_entry_category cat)
          (key.encrypt_entry_name nm)).1 := by
  simp only [update, perform_remove, Bool.not_false, Bool.and_true]
  rfl

/-! Claim theorems. -/

/-- Claim C1, counterexample: on an empty database (so no entry with kind 0,
category `"c"`, name `"n"` exists), `update` with operation Replace fails
with `NotFound` instead of succeeding — the remove inside Replace is
performed with `ignore_error = false`. -/
theorem replace_missing_entry_counterexample :
    dbEmpty.items = [] ∧
    update dbEmpty keyC 1 0 EntryOperation.replace "c" "n" (some [1]) none none =
      .err .notFound :=
  ⟨rfl, by decide⟩

/-- Claim C1, amended: for every session and every
(kind, category, name, value, tags, expiry), `update` with operation Replace
performs the remove with `ignore_error = false` and then the insert inside a
single transaction; consequently Replace fails with `NotFound` when no entry
with that (kind, category, name) previously exists. -/
theorem replace_remove_then_insert :
    ∀ (db : Db) (key : StoreKey) (pid kind : Int) (cat nm : String)
      (v : Bytes) (tags : Option (List EntryTag)) (ex : Option Int),
    (update db key pid kind .replace cat nm (some v) tags ex =
      match perform_remove db pid kind (key.encrypt_entry_category cat)
          (key.encrypt_entry_name nm) false with
      | .ok db2 =>
        perform_insert db2 pid kind (key.encrypt_entry_category cat)
          (key.encrypt_entry_name nm) (key.encrypt_entry_value v)
          (tags.map key.encrypt_entry_tags) (ex.map expiry_timestamp)
      | .err e => .err e
      | .panicked => .panicked) ∧
    ((∀ r ∈ db.items,
        itemKeyMatch pid kind (key.encrypt_entry_category cat)
          (key.encrypt_entry_name nm) r = false) →
      update db key pid kind .replace cat nm (some v) tags ex = .err .notFound) := by
  intro db key pid kind cat nm v tags ex
  refine ⟨rfl, ?_⟩
  intro h
  have hfil : db.items.filter (itemKeyMatch pid kind (key.encrypt_entry_category cat)
      (key.encrypt_entry_name nm)) = [] :=
    List.filter_eq_nil_iff.mpr (by intro a ha; simp [h a ha])
  simp [update, perform_remove, deleteQueryExec, hfil]

/-- Witness for the amended claim C1 at concrete inputs. -/
theorem replace_remove_then_insert_witness :
    update dbEmpty keyC 2 7 EntryOperation.replace "cat" "nm" (some [4]) none none =
      .err .notFound :=
  (replace_remove_then_insert dbEmpty keyC 2 7 "cat" "nm" [4] none none).2 (by decide)

/-- Claim C2 (code-bug evidence): for every session and every
(kind, category, name, tags, expiry), calling `update` with operation Insert
or Replace and a `None` value panics (`value.unwrap()` on `None`), rather
than failing with an `Input` error. -/
theorem update_missing_value_panics :
    ∀ (db : Db) (key : StoreKey) (pid kind : Int) (cat nm : String)
      (tags : Option (List EntryTag)) (ex : Option Int),
    update db key pid kind .insert cat nm none tags ex = .panicked ∧
    update db key pid kind .replace cat nm none tags ex = .panicked :=
  fun _ _ _ _ _ _ _ _ => ⟨rfl, rfl⟩

/-- Claim C3: if a live entry with the same (profile, kind, category, name)
already exists, `update` with operation Insert fails with `Duplicate` (the
insert runs `ON CONFLICT DO NOTHING RETURNING id` and an empty result is
reported as `Duplicate`); otherwise the item row is stored, each tag row is
inserted, and the transaction commits. -/
theorem update_insert_spec :
    ∀ (db : Db) (key : StoreKey) (pid kind : Int) (cat nm : String) (v : Bytes)
      (tags : Option (List EntryTag)) (ex : Option Int),
    (∀ it ∈ db.items,
        itemKeyMatch pid kind (key.encrypt_entry_category cat)
          (key.encrypt_entry_name nm) it = true →
        update db key pid kind .insert cat nm (some v) tags ex = .err .duplicate) ∧
    (update db key pid kind .insert cat nm (some v) tags ex =
      if db.items.any (itemKeyMatch pid kind (key.encrypt_entry_category cat)
          (key.encrypt_entry_name nm)) then .err .duplicate
      else
        .ok { db with
                items := db.items ++
                  [⟨db.next_id, pid, kind, key.encrypt_entry_category cat,
                    key.encrypt_entry_name nm, key.encrypt_entry_value v,
                    ex.map expiry_timestamp⟩],
                items_tags := db.items_tags ++
                  (match tags with
                   | none => []
                   | some ts =>
                     (key.encrypt_entry_tags ts).map
                       (fun tg => ⟨db.next_id, tg.name, tg.value,
                         if tg.plaintext then 1 else 0⟩)),
                next_id := db.next_id + 1 }) := by
  intro db key pid kind cat nm v tags ex
  have hmain : update db key pid kind .insert cat nm (some v) tags ex =
      if db.items.any (itemKeyMatch pid kind (key.encrypt_entry_category cat)
          (key.encrypt_entry_name nm)) then .err .duplicate
      else
        .ok { db with
                items := db.items ++
                  [⟨db.next_id, pid, kind, key.encrypt_entry_category cat,
                    key.encrypt_entry_name nm, key.encrypt_entry_value v,
                    ex.map expiry_timestamp⟩],
                items_tags := db.items_tags ++
                  (match tags with
                   | none => []
                   | some ts =>
                     (key.encrypt_entry_tags ts).map
                       (fun tg => ⟨db.next_id, tg.name, tg.value,
                         if tg.plaintext then 1 else 0⟩)),
                next_id := db.next_id + 1 } := by
    by_cases hany : db.items.any (itemKeyMatch pid kind (key.encrypt_entry_category cat)
        (key.encrypt_entry_name nm)) = true
    · cases tags <;> simp [update, perform_insert, insertQueryExec, hany]
    · cases tags <;> simp [update, perform_insert, insertQueryExec, hany]
  refine ⟨?_, hmain⟩
  intro it hit hkm
  have hany : db.items.any (itemKeyMatch pid kind (key.encrypt_entry_category cat)
      (key.encrypt_entry_name nm)) = true :=
    List.any_eq_true.mpr ⟨it, hit, hkm⟩
  rw [hmain, if_pos hany]

/-- Witness for claim C3 at concrete inputs. -/
theorem update_insert_spec_witness :
    update dbOne keyC 1 0 EntryOperation.insert "c" "n" (some [5]) none none =
      .err .duplicate :=
  (update_insert_spec dbOne keyC 1 0 "c" "n" [5] none none).1
    ⟨1, 1, 0, strBytes "c", strBytes "n", [9], none⟩ (by decide) (by decide)

/-- Claim C4: `update` with operation Remove deletes the rows matching
(profile_id, kind, encrypted category, encrypted name); it fails with
`NotFound` exactly when the deletion affects zero rows (the public update
path never sets `ignore_error`); when an entry existed Remove succeeds, and
after a successful Remove a fetch of the same (kind, category, name) returns
`None`. -/
theorem update_remove_spec :
    ∀ (db : Db) (key : StoreKey) (pid kind : Int) (cat nm : String)
      (v : Option Bytes) (tags : Option (List EntryTag)) (ex : Option Int)
      (fu tx : Bool),
    (update db key pid kind .remove cat nm v tags ex = .err .notFound ↔
      (db.items.filter (itemKeyMatch pid kind (key.encrypt_entry_category cat)
        (key.encrypt_entry_name nm))).length = 0) ∧
    ((db.items.filter (itemKeyMatch pid kind (key.encrypt_entry_category cat)
        (key.encrypt_entry_name nm))).length ≠ 0 →
      ∃ db2, update db key pid kind .remove cat nm v tags ex = .ok db2) ∧
    (∀ db2, update db key pid kind .remove cat nm v tags ex = .ok db2 →
      fetch db2 key pid kind cat nm fu tx = none) := by
  intro db key pid kind cat nm v tags ex fu tx
  by_cases hn : (db.items.filter (itemKeyMatch pid kind (key.encrypt_entry_category cat)
      (key.encrypt_entry_name nm))).length = 0
  · have hn' : ((db.items.filter (itemKeyMatch pid kind (key.encrypt_entry_category cat)
        (key.encrypt_entry_name nm))).length == 0) = true := by simp [hn]
    refine ⟨?_, ?_, ?_⟩
    · rw [update_remove_eq, if_pos hn']
      simp [hn]
    · intro h; exact absurd hn h
    · intro db2 h
      rw [update_remove_eq, if_pos hn'] at h
      exact absurd h (by simp)
  · have hn' : ¬(((db.items.filter (itemKeyMatch pid kind (key.encrypt_entry_category cat)
        (key.encrypt_entry_name nm))).length == 0) = true) := by simp [hn]
    refine ⟨?_, ?_, ?_⟩
    · rw [update_remove_eq, if_neg hn']
      simp [hn]
    · intro _
      refine ⟨(deleteQueryExec db pid kind (key.encrypt_entry_category cat)
        (key.encrypt_entry_name nm)).1, ?_⟩
      rw [update_remove_eq, if_neg hn']
    · intro db2 h
      rw [update_remove_eq, if_neg hn'] at h
      injection h with h'
      subst h'
      refine fetch_eq_none_of_no_match _ key pid kind cat nm fu tx ?_
      show (db.items.filter (fun r => !(itemKeyMatch pid kind
          (key.encrypt_entry_category cat) (key.encrypt_entry_name nm) r))).find?
        (fetchRowPred db.now pid kind (key.encrypt_entry_category cat)
          (key.encrypt_entry_name nm)) = none
      exact find?_fetch_after_delete _ _ _ _ _ _

/-- Witness for claim C4 at concrete inputs. -/
theorem update_remove_spec_witness :
    fetch dbOneRemoved keyC 1 0 "c" "n" false false = none :=
  (update_remove_spec dbOne keyC 1 0 "c" "n" none none none false false).2.2
    dbOneRemoved (by decide)

/-- Claim C5: `rekey_backend` is atomic — whenever the call returns an error
(in particular when a profile store-key update or the config wrap-key update
affects a number of rows different from one), the database transaction is
not committed and the in-memory key cache is unchanged; the cache is
replaced by a fresh `KeyCache::new(wrap_key)` only when the transaction
commits. -/
theorem rekey_backend_atomic :
    ∀ (db : Db) (cache : KeyCache) (resolve : Except ErrorKind (Nat × String))
      (loadKey : Bytes → Except ErrorKind Nat)
      (encodeKey : Nat → Nat → Except ErrorKind Bytes),
    (∀ e db2 cache2,
        rekey_backend db cache resolve loadKey encodeKey = (.error e, db2, cache2) →
        db2 = db ∧ cache2 = cache) ∧
    (∀ db2 cache2,
        rekey_backend db cache resolve loadKey encodeKey = (.ok (), db2, cache2) →
        ∃ wk ref, resolve = .ok (wk, ref) ∧ cache2 = KeyCache.new wk) ∧
    (∀ wk ref updKeys, resolve = .ok (wk, ref) →
        rekeyCollectKeys loadKey encodeKey wk db.profiles [] = .ok updKeys →
        (∃ p ∈ updKeys, (db.profiles.filter (fun q => q.id == p.1)).length ≠ 1) →
        ∃ e2, (rekey_backend db cache resolve loadKey encodeKey).1 = .error e2) := by
  intro db cache resolve loadKey encodeKey
  refine ⟨?_, ?_, ?_⟩
  · intro e db2 cache2 h
    unfold rekey_backend at h
    split at h
    · simp only [Prod.mk.injEq] at h
      exact ⟨h.2.1.symm, h.2.2.symm⟩
    · split at h
      · simp only [Prod.mk.injEq] at h
        exact ⟨h.2.1.symm, h.2.2.symm⟩
      · split at h
        · simp only [Prod.mk.injEq] at h
          exact ⟨h.2.1.symm, h.2.2.symm⟩
        · split at h
          · simp only [Prod.mk.injEq] at h
            exact ⟨h.2.1.symm, h.2.2.symm⟩
          · simp only [Prod.mk.injEq] at h
            exact absurd h.1 (by simp)
  · intro db2 cache2 h
    unfold rekey_backend at h
    cases hres : resolve with
    | error e =>
      simp [hres] at h
    | ok wr =>
      obtain ⟨wk, ref⟩ := wr
      simp only [hres] at h
      cases hcol : rekeyCollectKeys loadKey encodeKey wk db.profiles [] with
      | error e =>
        simp [hcol] at h
      | ok updKeys =>
        simp only [hcol] at h
        cases happ : applyProfileUpdates db updKeys with
        | error e =>
          simp [happ] at h
        | ok txn2 =>
          simp only [happ] at h
          cases hcfg : updateConfigWrapKey txn2 ref with
          | error e =>
            simp [hcfg] at h
          | ok txn3 =>
            simp only [hcfg, Prod.mk.injEq] at h
            exact ⟨wk, ref, rfl, h.2.2.symm⟩
  · intro wk ref updKeys hres hcol hbad
    obtain ⟨e2, he2⟩ := applyProfileUpdates_err_of_badCount updKeys db hbad
    refine ⟨e2, ?_⟩
    simp only [rekey_backend, hres, hcol, he2]

/-- Witness for claim C5 at concrete inputs: a failing resolve leaves both
the database and the cache untouched; a successful rekey installs a fresh
cache under the new wrap key; a duplicated profile id aborts the rekey. -/
theorem rekey_backend_atomic_witness :
    (dbRekey = dbRekey ∧ cacheC = cacheC) ∧
    (∃ wk ref, (Except.ok (9, "new-uri") : Except ErrorKind (Nat × String)) = .ok (wk, ref) ∧
      KeyCache.new 9 = KeyCache.new wk) ∧
    (∃ e2, (rekey_backend dbRekeyBad cacheC (.ok (9, "new-uri"))
        (fun _ => .ok 3) (fun a b => .ok [a + b])).1 = .error e2) := by
  refine ⟨?_, ?_, ?_⟩
  · exact (rekey_backend_atomic dbRekey cacheC (.error .encryption)
      (fun _ => .ok 3) (fun a b => .ok [a + b])).1 .encryption dbRekey cacheC rfl
  · exact (rekey_backend_atomic dbRekey cacheC (.ok (9, "new-uri"))
      (fun _ => .ok 3) (fun a b => .ok [a + b])).2.1 dbRekeyDone (KeyCache.new 9) rfl
  · exact (rekey_backend_atomic dbRekeyBad cacheC (.ok (9, "new-uri"))
      (fun _ => .ok 3) (fun a b => .ok [a + b])).2.2 9 "new-uri" [(1, [12])] rfl rfl
      ⟨(1, [12]), by decide, by decide⟩

/-- Claim C6: an entry whose expiry lies in the past is invisible to count,
fetch and scan — the corresponding queries all carry
`expiry IS NULL OR expiry > CURRENT_TIMESTAMP`, so the expired row is not in
the counted row set, not in the scanned row set, and fetch returns `None`
when the expired row is the only one matching its key. -/
theorem expired_entry_invisible :
    ∀ (db : Db) (key : StoreKey) (pid kind : Int) (cat nm : String)
      (it : ItemRow) (t : Int) (fu tx : Bool),
    it ∈ db.items → it.expiry = some t → t ≤ db.now →
    (it ∉ countQueryRows db pid kind (key.encrypt_entry_category cat)) ∧
    (it ∉ scanQueryRows db pid kind (key.encrypt_entry_category cat)) ∧
    ((∀ r ∈ db.items,
        itemKeyMatch pid kind (key.encrypt_entry_category cat)
          (key.encrypt_entry_name nm) r = true → r = it) →
      fetch db key pid kind cat nm fu tx = none) ∧
    count db key pid kind cat =
      ((countQueryRows db pid kind (key.encrypt_entry_category cat)).length : Int) ∧
    strContains "expiry IS NULL OR expiry > CURRENT_TIMESTAMP" COUNT_QUERY = true ∧
    strContains "expiry IS NULL OR expiry > CURRENT_TIMESTAMP" FETCH_QUERY = true ∧
    strContains "expiry IS NULL OR expiry > CURRENT_TIMESTAMP" SCAN_QUERY = true := by
  intro db key pid kind cat nm it t fu tx hit hexp hle
  have hlive : expiryLive db.now it.expiry = false := by
    rw [hexp]
    simp only [expiryLive, decide_eq_false_iff_not]
    omega
  refine ⟨?_, ?_, ?_, rfl, by decide, by decide, by decide⟩
  · intro hmem
    simp only [countQueryRows, List.mem_filter, Bool.and_eq_true] at hmem
    rw [hlive] at hmem
    exact Bool.false_ne_true hmem.2.2
  · intro hmem
    simp only [scanQueryRows, List.mem_filter, Bool.and_eq_true] at hmem
    rw [hlive] at hmem
    exact Bool.false_ne_true hmem.2.2
  · intro h2
    refine fetch_eq_none_of_no_match db key pid kind cat nm fu tx ?_
    rw [List.find?_eq_none]
    intro x hx
    by_cases hkm : itemKeyMatch pid kind (key.encrypt_entry_category cat)
        (key.encrypt_entry_name nm) x = true
    · have hxit := h2 x hx hkm
      subst hxit
      simp [fetchRowPred, hlive]
    · have hkm' : itemKeyMatch pid kind (key.encrypt_entry_category cat)
          (key.encrypt_entry_name nm) x = false := by
        revert hkm
        cases itemKeyMatch pid kind (key.encrypt_entry_category cat)
          (key.encrypt_entry_name nm) x <;> simp
      simp [fetchRowPred, hkm']

/-- Witness for claim C6 at concrete inputs. -/
theorem expired_entry_invisible_witness :
    fetch dbOneExpired keyC 1 0 "c" "n" false false = none ∧
    itExpired ∉ countQueryRows dbOneExpired 1 0 (keyC.encrypt_entry_category "c") := by
  have h := expired_entry_invisible dbOneExpired keyC 1 0 "c" "n" itExpired (-5)
    false false (by decide) rfl (by decide)
  exact ⟨h.2.2.1 (by decide), h.1⟩

/-- Claim C7 (code-bug evidence): the query sent by `resolve_profile_key` on
a cache miss carries a `?1` placeholder, while the Postgres placeholder
renderer of this backend produces `$1`, which does not occur in the query —
so the cache-miss load cannot reach the `profiles` row by name. -/
theorem resolve_profile_key_placeholder_mismatch :
    strContains "?1" PROFILE_FETCH_QUERY = true ∧
    placeholder 1 = "$1" ∧
    strContains (placeholder 1) PROFILE_FETCH_QUERY = false :=
  ⟨by decide, by decide, by decide⟩

/-- Claim C8: with `for_update = true`, the row-locking `FETCH_QUERY_UPDATE`
(ending in `FOR UPDATE`) is chosen only inside a transaction; outside a
transaction the plain `FETCH_QUERY` is used and no error is raised, and the
returned entry is the same regardless of `for_update` and of the transaction
state. -/
theorem fetch_for_update_behavior :
    ∀ (db : Db) (key : StoreKey) (pid kind : Int) (cat nm : String) (fu tx : Bool),
    fetchQueryChoice fu false = FETCH_QUERY ∧
    fetchQueryChoice true true = FETCH_QUERY_UPDATE ∧
    strEndsWith FETCH_QUERY_UPDATE "FOR UPDATE" = true ∧
    fetch db key pid kind cat nm fu tx = fetch db key pid kind cat nm false false := by
  intro db key pid kind cat nm fu tx
  refine ⟨by cases fu <;> rfl, rfl, by decide, ?_⟩
  simp only [fetch, fetchQueryExec, fetchQueryUpdateExec, ite_self]

/-- Claim C9: the placeholder substitution applied to
`"This $$ is $10 a $$ string!"` with starting index 3 renders
`"This $3 is $12 a $5 string!"` — each `$$` token and each existing `$N`
placeholder is renumbered through `placeholder`, which renders index N as
`$N`. -/
theorem replace_arg_placeholders_example :
    replace_arg_placeholders "This $$ is $10 a $$ string!" 3 =
      "This $3 is $12 a $5 string!" := by decide

/-- Claim C10: the deletion queries carry no expiry predicate, so `update`
with operation Remove succeeds on an entry whose expiry lies in the past
(while fetch returns `None` for the same key), the expired row is in the row
set deleted by `remove_all`, and the row count returned by `remove_all`
includes it. -/
theorem delete_ignores_expiry :
    ∀ (db : Db) (key : StoreKey) (pid kind : Int) (cat nm : String)
      (it : ItemRow) (t : Int) (v : Option Bytes) (tags : Option (List EntryTag))
      (ex : Option Int) (fu tx : Bool),
    it ∈ db.items →
    itemKeyMatch pid kind (key.encrypt_entry_category cat)
      (key.encrypt_entry_name nm) it = true →
    it.expiry = some t → t ≤ db.now →
    (∃ db2, update db key pid kind .remove cat nm v tags ex = .ok db2) ∧
    ((∀ r ∈ db.items,
        itemKeyMatch pid kind (key.encrypt_entry_category cat)
          (key.encrypt_entry_name nm) r = true →
        expiryLive db.now r.expiry = false) →
      fetch db key pid kind cat nm fu tx = none) ∧
    it ∈ db.items.filter (itemCatMatch pid kind (key.encrypt_entry_category cat)) ∧
    0 < (remove_all db key pid kind cat).2 ∧
    strContains "expiry" DELETE_QUERY = false ∧
    strContains "expiry" DELETE_ALL_QUERY = false := by
  intro db key pid kind cat nm it t v tags ex fu tx hit hkm hexp hle
  have hcat : itemCatMatch pid kind (key.encrypt_entry_category cat) it = true := by
    have h := hkm
    simp only [itemKeyMatch, Bool.and_eq_true] at h
    exact h.1
  have hmemfil : it ∈ db.items.filter (itemCatMatch pid kind (key.encrypt_entry_category cat)) :=
    List.mem_filter.mpr ⟨hit, hcat⟩
  have hmemkey : it ∈ db.items.filter (itemKeyMatch pid kind
      (key.encrypt_entry_category cat) (key.encrypt_entry_name nm)) :=
    List.mem_filter.mpr ⟨hit, hkm⟩
  have hnz : (db.items.filter (itemKeyMatch pid kind (key.encrypt_entry_category cat)
      (key.encrypt_entry_name nm))).length ≠ 0 := by
    intro h0
    rw [List.length_eq_zero] at h0
    rw [h0] at hmemkey
    exact List.not_mem_nil it hmemkey
  refine ⟨?_, ?_, hmemfil, ?_, by decide, by decide⟩
  · have hn' : ¬(((db.items.filter (itemKeyMatch pid kind (key.encrypt_entry_category cat)
        (key.encrypt_entry_name nm))).length == 0) = true) := by simp [hnz]
    refine ⟨(deleteQueryExec db pid kind (key.encrypt_entry_category cat)
      (key.encrypt_entry_name nm)).1, ?_⟩
    rw [update_remove_eq, if_neg hn']
  · intro h2
    refine fetch_eq_none_of_no_match db key pid kind cat nm fu tx ?_
    rw [List.find?_eq_none]
    intro x hx
    by_cases hkmx : itemKeyMatch pid kind (key.encrypt_entry_category cat)
        (key.encrypt_entry_name nm) x = true
    · have hlx := h2 x hx hkmx
      simp [fetchRowPred, hlx]
    · have hkmx' : itemKeyMatch pid kind (key.encrypt_entry_category cat)
          (key.encrypt_entry_name nm) x = false := by
        revert hkmx
        cases itemKeyMatch pid kind (key.encrypt_entry_category cat)
          (key.encrypt_entry_name nm) x <;> simp
      simp [fetchRowPred, hkmx']
  · show (0 : Int) <
      ((db.items.filter (itemCatMatch pid kind (key.encrypt_entry_category cat))).length : Int)
    have hp : 0 < (db.items.filter (itemCatMatch pid kind
        (key.encrypt_entry_category cat))).length :=
      List.length_pos.mpr (List.ne_nil_of_mem hmemfil)
    exact_mod_cast hp

/-- Witness for claim C10 at concrete inputs. -/
theorem delete_ignores_expiry_witness :
    (∃ db2, update dbOneExpired keyC 1 0 EntryOperation.remove "c" "n" none none none =
      .ok db2) ∧
    fetch dbOneExpired keyC 1 0 "c" "n" true false = none := by
  have h := delete_ignores_expiry dbOneExpired keyC 1 0 "c" "n" itExpired (-5)
    none none none true false (by decide) (by decide) rfl (by decide)
  exact ⟨h.1, h.2.1 (by decide)⟩

end AriesStoreKv
